import Mathlib

/-!
Shallow embedding of the goal-deduplication core of the NHL goal notifier
(`goal_notifier.py` and `nhl_client.py`).

JSON documents fetched from the remote API are modelled as records of
optional fields: a missing key read with Python's `dict.get` is `none`.
The mutable notifier state `self.notified_goals : Dict[int, Set[int]]` is
modelled as an insertion-ordered association list threaded explicitly
through each operation.  A Python exception caught by the `try/except` of
`check_for_goals` is modelled explicitly: either the fetch/parse itself
fails (`fetch = none`), or a play's `details` value is present but is not a
dictionary, so that `.get('eventOwnerTeamId')` raises in the middle of the
scan loop.  Game ids and event ids read with `.get` may be `None`, hence
the `Option Int` keys and set elements.
-/

/-- One participant record of a play-by-play document: the fields
`data.get('awayTeam', {}).get('abbrev')` and `...get('id')` (an absent key
gives `none`). -/
structure TeamRec where
  abbr : Option String
  id : Option Int
deriving DecidableEq

/-- The `details` value of one play.  `absent`: the key is missing, so
`goal.get('details', {})` yields the empty dict and the owner id is `None`;
`malformed`: the key is present but its value is not a dictionary, so
`.get('eventOwnerTeamId')` raises and the surrounding `except` of
`check_for_goals` fires mid-scan; `owner o`: a dictionary whose
`eventOwnerTeamId` entry is `o`. -/
inductive DetailsField where
  | absent : DetailsField
  | malformed : DetailsField
  | owner : Option Int → DetailsField
deriving DecidableEq

/-- One entry of `data['plays']`. -/
structure Play where
  typeDescKey : Option String
  eventId : Option Int
  details : DetailsField
deriving DecidableEq

/-- A parsed play-by-play document. -/
structure Snapshot where
  awayTeam : TeamRec
  homeTeam : TeamRec
  plays : List Play
deriving DecidableEq

/-- The owning-team id `goal.get('details', {}).get('eventOwnerTeamId')`
read from a non-raising `details` value. -/
def detailsOwner : DetailsField → Option Int
  | DetailsField.absent => none
  | DetailsField.malformed => none
  | DetailsField.owner o => o

/-- One game's set of already-notified event ids.  Python stores
`goal.get('eventId')`, which may be `None`; only membership is ever
observed, so a list models the Python set. -/
abbrev EventSet := List (Option Int)

/-- The notifier state `self.notified_goals : Dict[int, Set[int]]`, as an
insertion-ordered association list (Python dicts preserve insertion order;
the key is a game id that may be `None`). -/
abbrev NotifiedMap := List ((Option Int) × EventSet)

/-- Python `d.get(k)` on the notified-goals dict. -/
def mapGet : NotifiedMap → Option Int → Option EventSet
  | [], _ => none
  | p :: rest, k => if p.1 = k then some p.2 else mapGet rest k

/-- Python `d[k] = v` on the notified-goals dict: replace in place if the
key exists, otherwise append. -/
def mapSet : NotifiedMap → Option Int → EventSet → NotifiedMap
  | [], k, v => [(k, v)]
  | p :: rest, k, v => if p.1 = k then (k, v) :: rest else p :: mapSet rest k v

/-- `self.notified_goals.get(game_id, set())`. -/
def notifiedOf (m : NotifiedMap) (k : Option Int) : EventSet :=
  (mapGet m k).getD []

/-- Outcome of the `for goal in goals` loop of `check_for_goals`: the goals
appended to `new_goals` so far, the contents of the local `notified` set,
and whether the loop raised (a `details` value that is not a dictionary). -/
structure ScanResult where
  returned : List Play
  notified : EventSet
  raised : Bool
deriving DecidableEq

/-- The `for goal in goals` loop of `check_for_goals` (goal_notifier.py
lines 232-238): a goal is appended and its event id inserted into the local
`notified` set when its owner id equals the favorite team's id and its
event id is not yet in the set. -/
def scanLoop (fid : Option Int) : List Play → EventSet → ScanResult
  | [], n => ⟨[], n, false⟩
  | g :: rest, n =>
    if g.details = DetailsField.malformed then ⟨[], n, true⟩
    else if detailsOwner g.details = fid ∧ g.eventId ∉ n then
      ⟨g :: (scanLoop fid rest (n ++ [g.eventId])).returned,
        (scanLoop fid rest (n ++ [g.eventId])).notified,
        (scanLoop fid rest (n ++ [g.eventId])).raised⟩
    else scanLoop fid rest n

/-- Body of `check_for_goals` after the favorite team's id has been
resolved: filter the goal plays, run the scan loop on this game's set, and
commit.  On an exception the `except` branch returns `[]`; the local
`notified` set aliases the stored set `self.notified_goals[game_id]` when
that entry exists, so elements added before the exception stay recorded in
that case, while with no pre-existing entry the fresh local set is simply
discarded (the final dict assignment is never reached). -/
def scanGoals (st : NotifiedMap) (gameId fid : Option Int) (plays : List Play) :
    List Play × NotifiedMap :=
  if (scanLoop fid (plays.filter fun p => p.typeDescKey == some "goal")
      (notifiedOf st gameId)).raised then
    if (mapGet st gameId).isSome then
      ([], mapSet st gameId (scanLoop fid (plays.filter fun p => p.typeDescKey == some "goal")
        (notifiedOf st gameId)).notified)
    else ([], st)
  else
    ((scanLoop fid (plays.filter fun p => p.typeDescKey == some "goal")
        (notifiedOf st gameId)).returned,
      mapSet st gameId (scanLoop fid (plays.filter fun p => p.typeDescKey == some "goal")
        (notifiedOf st gameId)).notified)

/-- `GoalNotifier.check_for_goals` (goal_notifier.py lines 198-247).
`fetch` is the outcome of the HTTP fetch plus JSON parse: `none` when it
raises (the `except` branch), `some data` otherwise. -/
def check_for_goals (st : NotifiedMap) (gameId : Option Int) :
    Option Snapshot → List Play × NotifiedMap
  | none => ([], st)
  | some data =>
    if data.awayTeam.abbr = some "PHI" then
      scanGoals st gameId data.awayTeam.id data.plays
    else if data.homeTeam.abbr = some "PHI" then
      scanGoals st gameId data.homeTeam.id data.plays
    else ([], st)

/-- The favorite team's numeric id as `check_for_goals` resolves it from
the game's own payload (lines 214-223): `none` when neither participant's
abbreviation is `PHI`. -/
def resolveFavoriteId (data : Snapshot) : Option (Option Int) :=
  if data.awayTeam.abbr = some "PHI" then some data.awayTeam.id
  else if data.homeTeam.abbr = some "PHI" then some data.homeTeam.id
  else none

/-- Whether a call `check_for_goals st gid fetch` hits the `except` branch:
the fetch/parse itself raised, or the scan loop raised on a play whose
`details` value is not a dictionary. -/
def raisesDuring (st : NotifiedMap) (gid : Option Int) : Option Snapshot → Bool
  | none => true
  | some data =>
    if data.awayTeam.abbr = some "PHI" then
      (scanLoop data.awayTeam.id (data.plays.filter fun p => p.typeDescKey == some "goal")
        (notifiedOf st gid)).raised
    else if data.homeTeam.abbr = some "PHI" then
      (scanLoop data.homeTeam.id (data.plays.filter fun p => p.typeDescKey == some "goal")
        (notifiedOf st gid)).raised
    else false

/-- A sequence of calls to `check_for_goals` on the same game id, one per
fetched snapshot; returns the concatenation of the returned lists and the
final notifier state. -/
def runCalls (gid : Option Int) : NotifiedMap → List (Option Snapshot) → List Play × NotifiedMap
  | st, [] => ([], st)
  | st, f :: fs =>
    ((check_for_goals st gid f).1 ++ (runCalls gid (check_for_goals st gid f).2 fs).1,
      (runCalls gid (check_for_goals st gid f).2 fs).2)

/-- One scoreboard entry as read by `get_active_flyers_games` and
`is_favorite_team_game`. -/
structure ScoreGame where
  id : Option Int
  awayAbbrev : Option String
  homeAbbrev : Option String
  gameState : Option String
deriving DecidableEq

/-- A parsed scoreboard document; `games = none` models a document without
a `games` key. -/
structure Scoreboard where
  games : Option (List ScoreGame)
deriving DecidableEq

/-- `NHLClient.is_favorite_team_game` (nhl_client.py lines 116-128); the
abbreviations are read with default `''`. -/
def is_favorite_team_game (favorite : String) (g : ScoreGame) : Bool :=
  (g.awayAbbrev.getD "" == favorite) || (g.homeAbbrev.getD "" == favorite)

/-- `GoalNotifier.get_active_flyers_games` (goal_notifier.py lines
249-272); the notifier's client is constructed with favorite team `PHI`.
`scoreboard = none` models the empty dict that `NHLClient.get_scoreboard`
returns when the fetch fails, which is falsy. -/
def get_active_flyers_games (scoreboard : Option Scoreboard) : List ScoreGame :=
  match scoreboard with
  | none => []
  | some sb =>
    match sb.games with
    | none => []
    | some gs =>
      gs.filter fun game =>
        is_favorite_team_game "PHI" game &&
          ((game.gameState.getD "" == "LIVE") || (game.gameState.getD "" == "CRIT"))

/-- The goal-checking part of one iteration of `GoalNotifier.monitor_games`
(lines 288-301, delivery elided): fold `check_for_goals` over the active
games in order; `pbp` gives each game's play-by-play fetch outcome. -/
def tickGames (pbp : Option Int → Option Snapshot) :
    NotifiedMap → List ScoreGame → List ((Option Int) × Play) × NotifiedMap
  | st, [] => ([], st)
  | st, game :: rest =>
    ((check_for_goals st game.id (pbp game.id)).1.map (fun g => (game.id, g)) ++
        (tickGames pbp (check_for_goals st game.id (pbp game.id)).2 rest).1,
      (tickGames pbp (check_for_goals st game.id (pbp game.id)).2 rest).2)

/-- One full poll tick: select the active favorite-team games from the
scoreboard fetch outcome, then check each for new goals. -/
def tick (st : NotifiedMap) (scoreboard : Option Scoreboard)
    (pbp : Option Int → Option Snapshot) : List ((Option Int) × Play) × NotifiedMap :=
  tickGames pbp st (get_active_flyers_games scoreboard)

/-- Per-game body of `GoalNotifier.monitor_games` (lines 300-310): compute
the new goals, which updates the notifier state, then attempt exactly one
SMS per new goal; `send` gives each attempt's outcome, which the code
ignores (`send_sms`'s boolean result is dropped). -/
def monitorGameStep (send : Play → Bool) (st : NotifiedMap) (gid : Option Int)
    (fetch : Option Snapshot) : List (Play × Bool) × NotifiedMap :=
  ((check_for_goals st gid fetch).1.map (fun g => (g, send g)), (check_for_goals st gid fetch).2)

/-- The selection predicate of claim C5, written from the spec's words:
state is LIVE or CRIT and a participant abbreviation equals the configured
favorite-team code. -/
def specSelected (g : ScoreGame) : Bool :=
  ((g.awayAbbrev == some "PHI") || (g.homeAbbrev == some "PHI")) &&
    ((g.gameState == some "LIVE") || (g.gameState == some "CRIT"))

/-! Association-list lemmas for the notified-goals dict. -/

theorem mapGet_mapSet_self (m : NotifiedMap) (k : Option Int) (v : EventSet) :
    mapGet (mapSet m k v) k = some v := by
  induction m with
  | nil => simp [mapGet, mapSet]
  | cons p rest ih =>
    by_cases h : p.1 = k
    · simp [mapGet, mapSet, h]
    · simp [mapGet, mapSet, h, ih]

theorem mapGet_mapSet_ne (m : NotifiedMap) (k j : Option Int) (v : EventSet)
    (hne : j ≠ k) : mapGet (mapSet m k v) j = mapGet m j := by
  have hkj : ¬ k = j := fun h => hne h.symm
  induction m with
  | nil => simp [mapGet, mapSet, hkj]
  | cons p rest ih =>
    by_cases h : p.1 = k
    · have hj : ¬ p.1 = j := fun hpj => hne (hpj ▸ h)
      simp [mapGet, mapSet, h, hj, hkj]
    · by_cases hj : p.1 = j
      · simp [mapGet, mapSet, h, hj, hne]
      · simp [mapGet, mapSet, h, hj, ih]

theorem notifiedOf_mapSet_self (m : NotifiedMap) (k : Option Int) (v : EventSet) :
    notifiedOf (mapSet m k v) k = v := by
  simp [notifiedOf, mapGet_mapSet_self]

/-! Scan-loop lemmas. -/

theorem scanLoop_cons_mal (fid : Option Int) (g : Play) (rest : List Play) (n : EventSet)
    (h1 : g.details = DetailsField.malformed) :
    scanLoop fid (g :: rest) n = ⟨[], n, true⟩ := by
  simp only [scanLoop]
  rw [if_pos h1]

theorem scanLoop_cons_add (fid : Option Int) (g : Play) (rest : List Play) (n : EventSet)
    (h1 : g.details ≠ DetailsField.malformed)
    (h2 : detailsOwner g.details = fid ∧ g.eventId ∉ n) :
    scanLoop fid (g :: rest) n =
      ⟨g :: (scanLoop fid rest (n ++ [g.eventId])).returned,
        (scanLoop fid rest (n ++ [g.eventId])).notified,
        (scanLoop fid rest (n ++ [g.eventId])).raised⟩ := by
  simp only [scanLoop]
  rw [if_neg h1, if_pos h2]

theorem scanLoop_cons_skip (fid : Option Int) (g : Play) (rest : List Play) (n : EventSet)
    (h1 : g.details ≠ DetailsField.malformed)
    (h2 : ¬(detailsOwner g.details = fid ∧ g.eventId ∉ n)) :
    scanLoop fid (g :: rest) n = scanLoop fid rest n := by
  simp only [scanLoop]
  rw [if_neg h1, if_neg h2]

theorem scanLoop_mono (fid e : Option Int) (goals : List Play) :
    ∀ n : EventSet, e ∈ n → e ∈ (scanLoop fid goals n).notified := by
  induction goals with
  | nil => intro n h; simpa [scanLoop] using h
  | cons g rest ih =>
    intro n h
    simp only [scanLoop]
    split_ifs with h1 h2
    · simpa using h
    · exact ih (n ++ [g.eventId]) (List.mem_append_left _ h)
    · exact ih n h

theorem scanLoop_returned_marked (fid : Option Int) (goals : List Play) :
    ∀ (n : EventSet) (g : Play), g ∈ (scanLoop fid goals n).returned →
      g.eventId ∈ (scanLoop fid goals n).notified := by
  induction goals with
  | nil => intro n g h; simp [scanLoop] at h
  | cons p rest ih =>
    intro n g h
    simp only [scanLoop] at h ⊢
    split_ifs at h ⊢ with h1 h2
    · simp at h
    · rcases List.mem_cons.mp h with hg | hg
      · subst hg
        exact scanLoop_mono fid g.eventId rest (n ++ [g.eventId])
          (List.mem_append_right _ (List.mem_singleton_self _))
      · exact ih (n ++ [p.eventId]) g hg
    · exact ih n g h

theorem scanLoop_countP_zero (fid e : Option Int) (goals : List Play) :
    ∀ n : EventSet, e ∈ n →
      (scanLoop fid goals n).returned.countP (fun g => g.eventId == e) = 0 := by
  induction goals with
  | nil => intro n h; simp [scanLoop]
  | cons g rest ih =>
    intro n h
    simp only [scanLoop]
    split_ifs with h1 h2
    · simp
    · rw [List.countP_cons]
      have hne : (g.eventId == e) = false := by
        apply beq_eq_false_iff_ne.mpr
        intro hEq
        exact h2.2 (hEq ▸ h)
      rw [hne, ih (n ++ [g.eventId]) (List.mem_append_left _ h)]
      simp
    · exact ih n h

theorem scanLoop_countP_le_one (fid e : Option Int) (goals : List Play) :
    ∀ n : EventSet,
      (scanLoop fid goals n).returned.countP (fun g => g.eventId == e) ≤ 1 := by
  induction goals with
  | nil => intro n; simp [scanLoop]
  | cons g rest ih =>
    intro n
    simp only [scanLoop]
    split_ifs with h1 h2
    · simp
    · rw [List.countP_cons]
      by_cases hEq : g.eventId = e
      · have hz : (scanLoop fid rest (n ++ [g.eventId])).returned.countP
            (fun p => p.eventId == e) = 0 :=
          scanLoop_countP_zero fid e rest (n ++ [g.eventId]) (by simp [hEq])
        have hbe : (g.eventId == e) = true := beq_iff_eq.mpr hEq
        rw [hz, hbe]
        simp
      · have hne : (g.eventId == e) = false := beq_eq_false_iff_ne.mpr hEq
        simpa [hne] using ih (n ++ [g.eventId])
    · exact ih n

theorem scanLoop_returned_owner (fid : Option Int) (goals : List Play) :
    ∀ (n : EventSet) (g : Play), g ∈ (scanLoop fid goals n).returned →
      detailsOwner g.details = fid := by
  induction goals with
  | nil => intro n g h; simp [scanLoop] at h
  | cons p rest ih =>
    intro n g h
    simp only [scanLoop] at h
    split_ifs at h with h1 h2
    · simp at h
    · rcases List.mem_cons.mp h with hg | hg
      · exact hg ▸ h2.1
      · exact ih (n ++ [p.eventId]) g hg
    · exact ih n g h

theorem scanLoop_returned_sublist (fid : Option Int) (goals : List Play) :
    ∀ n : EventSet, (scanLoop fid goals n).returned.Sublist goals := by
  induction goals with
  | nil => intro n; simp [scanLoop]
  | cons g rest ih =>
    intro n
    simp only [scanLoop]
    split_ifs with h1 h2
    · simp
    · exact List.Sublist.cons₂ g (ih (n ++ [g.eventId]))
    · exact List.Sublist.cons g (ih n)

theorem scanLoop_clean_not_raised (fid : Option Int) (goals : List Play) :
    ∀ n : EventSet, (∀ p ∈ goals, p.details ≠ DetailsField.malformed) →
      (scanLoop fid goals n).raised = false := by
  induction goals with
  | nil => intro n _; simp [scanLoop]
  | cons g rest ih =>
    intro n hclean
    simp only [scanLoop]
    split_ifs with h1 h2
    · exact absurd h1 (hclean g (List.mem_cons_self g rest))
    · exact ih (n ++ [g.eventId]) (fun p hp => hclean p (List.mem_cons_of_mem g hp))
    · exact ih n (fun p hp => hclean p (List.mem_cons_of_mem g hp))

theorem scanLoop_append_id (fid : Option Int) (bs : List Play) :
    ∀ (as : List Play) (n : EventSet), scanLoop fid as n = ⟨[], n, false⟩ →
      scanLoop fid (as ++ bs) n = scanLoop fid bs n := by
  intro as
  induction as with
  | nil => intro n _; rfl
  | cons g rest ih =>
    intro n h
    simp only [scanLoop] at h
    simp only [List.cons_append, scanLoop]
    split_ifs at h ⊢ with h1 h2
    · exact absurd (congrArg ScanResult.raised h) (by simp)
    · exact absurd (congrArg ScanResult.returned h) (by simp)
    · exact ih n h

theorem scanLoop_post (fid : Option Int) (goals : List Play) :
    ∀ n : EventSet, (scanLoop fid goals n).raised = false →
      ∀ p ∈ goals, detailsOwner p.details = fid →
        p.eventId ∈ (scanLoop fid goals n).notified := by
  induction goals with
  | nil => intro n _ p hp; exact absurd hp (List.not_mem_nil p)
  | cons g rest ih =>
    intro n h p hp hpf
    by_cases h1 : g.details = DetailsField.malformed
    · rw [scanLoop_cons_mal fid g rest n h1] at h
      simp at h
    · by_cases h2 : detailsOwner g.details = fid ∧ g.eventId ∉ n
      · rw [scanLoop_cons_add fid g rest n h1 h2] at h ⊢
        have h' : (scanLoop fid rest (n ++ [g.eventId])).raised = false := h
        rcases List.mem_cons.mp hp with hg | hg
        · rw [hg]
          exact scanLoop_mono fid g.eventId rest (n ++ [g.eventId]) (by simp)
        · exact ih (n ++ [g.eventId]) h' p hg hpf
      · rw [scanLoop_cons_skip fid g rest n h1 h2] at h ⊢
        rcases List.mem_cons.mp hp with hg | hg
        · have hin : p.eventId ∈ n := by
            by_contra hn
            exact h2 ⟨hg ▸ hpf, hg ▸ hn⟩
          exact scanLoop_mono fid p.eventId rest n hin
        · exact ih n h p hg hpf

theorem scanLoop_nothing_new (fid : Option Int) (goals : List Play) :
    ∀ n : EventSet, (∀ p ∈ goals, p.details ≠ DetailsField.malformed) →
      (∀ p ∈ goals, detailsOwner p.details = fid → p.eventId ∈ n) →
      scanLoop fid goals n = ⟨[], n, false⟩ := by
  induction goals with
  | nil => intro n _ _; rfl
  | cons g rest ih =>
    intro n hclean hold
    simp only [scanLoop]
    split_ifs with h1 h2
    · exact absurd h1 (hclean g (List.mem_cons_self g rest))
    · exact absurd (hold g (List.mem_cons_self g rest) h2.1) h2.2
    · exact ih n (fun p hp => hclean p (List.mem_cons_of_mem g hp))
        (fun p hp hf => hold p (List.mem_cons_of_mem g hp) hf)

theorem scanLoop_single_fresh (fid : Option Int) (g : Play)
    (hmal : g.details ≠ DetailsField.malformed)
    (hown : detailsOwner g.details = fid) (n : EventSet) (hfresh : g.eventId ∉ n) :
    scanLoop fid [g] n = ⟨[g], n ++ [g.eventId], false⟩ := by
  simp only [scanLoop]
  rw [if_neg hmal, if_pos ⟨hown, hfresh⟩]

/-! Lemmas about `scanGoals` and `check_for_goals`. -/

theorem scanGoals_mono (st : NotifiedMap) (gid fid : Option Int) (plays : List Play)
    (e : Option Int) (h : e ∈ notifiedOf st gid) :
    e ∈ notifiedOf (scanGoals st gid fid plays).2 gid := by
  unfold scanGoals
  split_ifs with h1 h2
  · rw [notifiedOf_mapSet_self]
    exact scanLoop_mono fid e _ _ h
  · exact h
  · rw [notifiedOf_mapSet_self]
    exact scanLoop_mono fid e _ _ h

theorem scanGoals_returned_marked (st : NotifiedMap) (gid fid : Option Int)
    (plays : List Play) (g : Play) (h : g ∈ (scanGoals st gid fid plays).1) :
    g.eventId ∈ notifiedOf (scanGoals st gid fid plays).2 gid := by
  unfold scanGoals at h ⊢
  split_ifs at h ⊢ with h1 h2
  · simp at h
  · simp at h
  · rw [notifiedOf_mapSet_self]
    exact scanLoop_returned_marked fid _ _ g h

theorem scanGoals_countP_zero (st : NotifiedMap) (gid fid : Option Int)
    (plays : List Play) (e : Option Int) (h : e ∈ notifiedOf st gid) :
    (scanGoals st gid fid plays).1.countP (fun g => g.eventId == e) = 0 := by
  unfold scanGoals
  split_ifs with h1 h2
  · simp
  · simp
  · exact scanLoop_countP_zero fid e _ _ h

theorem scanGoals_countP_le_one (st : NotifiedMap) (gid fid : Option Int)
    (plays : List Play) (e : Option Int) :
    (scanGoals st gid fid plays).1.countP (fun g => g.eventId == e) ≤ 1 := by
  unfold scanGoals
  split_ifs with h1 h2
  · simp
  · simp
  · exact scanLoop_countP_le_one fid e _ _

theorem scanGoals_returned_owner (st : NotifiedMap) (gid fid : Option Int)
    (plays : List Play) (g : Play) (h : g ∈ (scanGoals st gid fid plays).1) :
    detailsOwner g.details = fid := by
  unfold scanGoals at h
  split_ifs at h with h1 h2
  · simp at h
  · simp at h
  · exact scanLoop_returned_owner fid _ _ g h

theorem scanGoals_returned_sublist (st : NotifiedMap) (gid fid : Option Int)
    (plays : List Play) : (scanGoals st gid fid plays).1.Sublist plays := by
  unfold scanGoals
  split_ifs with h1 h2
  · simp
  · simp
  · exact (scanLoop_returned_sublist fid _ _).trans (List.filter_sublist plays)

theorem check_eq_scanGoals (st : NotifiedMap) (gid : Option Int) (data : Snapshot)
    (fid : Option Int) (h : resolveFavoriteId data = some fid) :
    check_for_goals st gid (some data) = scanGoals st gid fid data.plays := by
  unfold resolveFavoriteId at h
  simp only [check_for_goals]
  by_cases h1 : data.awayTeam.abbr = some "PHI"
  · rw [if_pos h1] at h ⊢
    rw [Option.some_inj.mp h]
  · rw [if_neg h1] at h ⊢
    by_cases h2 : data.homeTeam.abbr = some "PHI"
    · rw [if_pos h2] at h ⊢
      rw [Option.some_inj.mp h]
    · rw [if_neg h2] at h
      simp at h

theorem check_not_participating (st : NotifiedMap) (gid : Option Int) (data : Snapshot)
    (ha : data.awayTeam.abbr ≠ some "PHI") (hh : data.homeTeam.abbr ≠ some "PHI") :
    check_for_goals st gid (some data) = ([], st) := by
  simp only [check_for_goals]
  rw [if_neg ha, if_neg hh]

theorem check_mono (st : NotifiedMap) (gid : Option Int) (fetch : Option Snapshot)
    (e : Option Int) (h : e ∈ notifiedOf st gid) :
    e ∈ notifiedOf (check_for_goals st gid fetch).2 gid := by
  cases fetch with
  | none => exact h
  | some data =>
    simp only [check_for_goals]
    split_ifs
    · exact scanGoals_mono st gid data.awayTeam.id data.plays e h
    · exact scanGoals_mono st gid data.homeTeam.id data.plays e h
    · exact h

theorem check_returned_marked (st : NotifiedMap) (gid : Option Int)
    (fetch : Option Snapshot) (g : Play) (h : g ∈ (check_for_goals st gid fetch).1) :
    g.eventId ∈ notifiedOf (check_for_goals st gid fetch).2 gid := by
  cases fetch with
  | none => simp [check_for_goals] at h
  | some data =>
    simp only [check_for_goals] at h ⊢
    split_ifs at h ⊢
    · exact scanGoals_returned_marked st gid data.awayTeam.id data.plays g h
    · exact scanGoals_returned_marked st gid data.homeTeam.id data.plays g h
    · simp at h

theorem check_countP_zero (st : NotifiedMap) (gid : Option Int) (fetch : Option Snapshot)
    (e : Option Int) (h : e ∈ notifiedOf st gid) :
    (check_for_goals st gid fetch).1.countP (fun g => g.eventId == e) = 0 := by
  cases fetch with
  | none => simp [check_for_goals]
  | some data =>
    simp only [check_for_goals]
    split_ifs
    · exact scanGoals_countP_zero st gid data.awayTeam.id data.plays e h
    · exact scanGoals_countP_zero st gid data.homeTeam.id data.plays e h
    · simp

theorem check_countP_le_one (st : NotifiedMap) (gid : Option Int) (fetch : Option Snapshot)
    (e : Option Int) :
    (check_for_goals st gid fetch).1.countP (fun g => g.eventId == e) ≤ 1 := by
  cases fetch with
  | none => simp [check_for_goals]
  | some data =>
    simp only [check_for_goals]
    split_ifs
    · exact scanGoals_countP_le_one st gid data.awayTeam.id data.plays e
    · exact scanGoals_countP_le_one st gid data.homeTeam.id data.plays e
    · simp

/-! Call-sequence lemmas. -/

theorem runCalls_countP_zero (gid e : Option Int) (fs : List (Option Snapshot)) :
    ∀ st : NotifiedMap, e ∈ notifiedOf st gid →
      (runCalls gid st fs).1.countP (fun g => g.eventId == e) = 0 := by
  induction fs with
  | nil => intro st _; rfl
  | cons f fs ih =>
    intro st h
    simp only [runCalls, List.countP_append]
    rw [check_countP_zero st gid f e h, ih _ (check_mono st gid f e h)]

theorem runCalls_countP_le_one (gid e : Option Int) (fs : List (Option Snapshot)) :
    ∀ st : NotifiedMap,
      (runCalls gid st fs).1.countP (fun g => g.eventId == e) ≤ 1 := by
  induction fs with
  | nil => intro st; simp [runCalls]
  | cons f fs ih =>
    intro st
    simp only [runCalls, List.countP_append]
    rcases Nat.eq_zero_or_pos
        ((check_for_goals st gid f).1.countP (fun g => g.eventId == e)) with h0 | hpos
    · rw [h0]
      simpa using ih (check_for_goals st gid f).2
    · obtain ⟨g, hg, hge⟩ := List.countP_pos_iff.mp hpos
      have hge2 : g.eventId = e := beq_iff_eq.mp hge
      have hmark : e ∈ notifiedOf (check_for_goals st gid f).2 gid :=
        hge2 ▸ check_returned_marked st gid f g hg
      rw [runCalls_countP_zero gid e fs _ hmark]
      have hle := check_countP_le_one st gid f e
      omega

/-! Helpers for the failure and frame claims. -/

theorem scanGoals_raised (st : NotifiedMap) (gid fid : Option Int) (plays : List Play)
    (h : (scanLoop fid (plays.filter fun p => p.typeDescKey == some "goal")
        (notifiedOf st gid)).raised = true) :
    (scanGoals st gid fid plays).1 = []
    ∧ (mapGet st gid = none → (scanGoals st gid fid plays).2 = st) := by
  unfold scanGoals
  rw [if_pos h]
  constructor
  · split_ifs <;> rfl
  · intro hnone
    rw [if_neg (by simp [hnone] : ¬(mapGet st gid).isSome = true)]

theorem scanGoals_other_keys (st : NotifiedMap) (gid fid : Option Int)
    (plays : List Play) (k : Option Int) (hk : k ≠ gid) :
    mapGet (scanGoals st gid fid plays).2 k = mapGet st k := by
  unfold scanGoals
  split_ifs
  · exact mapGet_mapSet_ne st gid k _ hk
  · rfl
  · exact mapGet_mapSet_ne st gid k _ hk

theorem check_other_keys (st : NotifiedMap) (gid : Option Int) (fetch : Option Snapshot)
    (k : Option Int) (hk : k ≠ gid) :
    mapGet (check_for_goals st gid fetch).2 k = mapGet st k := by
  cases fetch with
  | none => rfl
  | some data =>
    simp only [check_for_goals]
    split_ifs
    · exact scanGoals_other_keys st gid data.awayTeam.id data.plays k hk
    · exact scanGoals_other_keys st gid data.homeTeam.id data.plays k hk
    · rfl

theorem scanGoals_of_scan_ok (st : NotifiedMap) (gid fid : Option Int) (plays : List Play)
    (out : List Play) (nf : EventSet)
    (h : scanLoop fid (plays.filter fun p => p.typeDescKey == some "goal")
        (notifiedOf st gid) = ⟨out, nf, false⟩) :
    scanGoals st gid fid plays = (out, mapSet st gid nf) := by
  unfold scanGoals
  rw [h]
  simp

/-! The incremental-extension argument for claim C7. -/

theorem scanGoals_incremental (st : NotifiedMap) (gid fid : Option Int)
    (plays : List Play) (g : Play)
    (hgoal : g.typeDescKey = some "goal")
    (hmal : g.details ≠ DetailsField.malformed)
    (hown : detailsOwner g.details = fid)
    (hclean : ∀ p ∈ plays, p.typeDescKey = some "goal" → p.details ≠ DetailsField.malformed)
    (hfresh : g.eventId ∉ notifiedOf (scanGoals st gid fid plays).2 gid) :
    (scanGoals (scanGoals st gid fid plays).2 gid fid (plays ++ [g])).1 = [g] := by
  have hng : ∀ p ∈ plays.filter (fun q => q.typeDescKey == some "goal"),
      p.details ≠ DetailsField.malformed := by
    intro p hp
    have hm := List.mem_filter.mp hp
    exact hclean p hm.1 (beq_iff_eq.mp hm.2)
  have h1ok : (scanLoop fid (plays.filter fun q => q.typeDescKey == some "goal")
      (notifiedOf st gid)).raised = false :=
    scanLoop_clean_not_raised fid _ _ hng
  have hrun1 : scanGoals st gid fid plays =
      ((scanLoop fid (plays.filter fun q => q.typeDescKey == some "goal")
          (notifiedOf st gid)).returned,
        mapSet st gid (scanLoop fid (plays.filter fun q => q.typeDescKey == some "goal")
          (notifiedOf st gid)).notified) := by
    apply scanGoals_of_scan_ok
    rw [← h1ok]
  have hnf1 : notifiedOf (scanGoals st gid fid plays).2 gid
      = (scanLoop fid (plays.filter fun q => q.typeDescKey == some "goal")
          (notifiedOf st gid)).notified := by
    rw [hrun1]
    exact notifiedOf_mapSet_self st gid _
  have hfresh2 : g.eventId ∉ (scanLoop fid (plays.filter fun q => q.typeDescKey == some "goal")
      (notifiedOf st gid)).notified := by
    rw [hnf1] at hfresh
    exact hfresh
  have hzero : scanLoop fid (plays.filter fun q => q.typeDescKey == some "goal")
      ((scanLoop fid (plays.filter fun q => q.typeDescKey == some "goal")
        (notifiedOf st gid)).notified)
      = ⟨[], (scanLoop fid (plays.filter fun q => q.typeDescKey == some "goal")
          (notifiedOf st gid)).notified, false⟩ :=
    scanLoop_nothing_new fid _ _ hng (scanLoop_post fid _ _ h1ok)
  have hfilter : (plays ++ [g]).filter (fun q => q.typeDescKey == some "goal")
      = plays.filter (fun q => q.typeDescKey == some "goal") ++ [g] := by
    rw [List.filter_append]
    congr 1
    simp [List.filter, beq_iff_eq.mpr hgoal]
  have hscan2 : scanLoop fid ((plays ++ [g]).filter fun q => q.typeDescKey == some "goal")
      (notifiedOf (scanGoals st gid fid plays).2 gid)
      = ⟨[g], (scanLoop fid (plays.filter fun q => q.typeDescKey == some "goal")
          (notifiedOf st gid)).notified ++ [g.eventId], false⟩ := by
    rw [hfilter, hnf1, scanLoop_append_id fid [g] _ _ hzero]
    exact scanLoop_single_fresh fid g hmal hown _ hfresh2
  rw [scanGoals_of_scan_ok _ gid fid (plays ++ [g]) [g] _ hscan2]

/-! Helpers for the active-game filter and delivery claims. -/

theorem beq_getD_empty (o : Option String) (s : String)
    (hs : (("" : String) == s) = false) :
    ((o.getD "") == s) = (o == some s) := by
  cases o with
  | none => exact hs
  | some t => rfl

theorem map_pair_fst (l : List Play) (f : Play → Bool) :
    (l.map fun g => (g, f g)).map Prod.fst = l := by
  induction l with
  | nil => rfl
  | cons a l ih => simp [ih]

/-! Concrete documents used by witness and counterexample theorems. -/

/-- A play-by-play document where the favorite team is the away side
(id 4): one favorite goal, one opponent goal, one non-goal play. -/
def sampleAway : Snapshot :=
  ⟨⟨some "PHI", some 4⟩, ⟨some "NJD", some 7⟩,
    [⟨some "goal", some 10, DetailsField.owner (some 4)⟩,
     ⟨some "goal", some 11, DetailsField.owner (some 7)⟩,
     ⟨some "shot", some 12, DetailsField.owner (some 4)⟩]⟩

/-- A play-by-play document in which the favorite team does not play. -/
def sampleOther : Snapshot := ⟨⟨some "NYR", some 3⟩, ⟨some "BOS", some 6⟩, []⟩

/-- A document whose second goal play has a non-dictionary `details` value,
so the scan loop raises after recording the first goal. -/
def sampleRaise : Snapshot :=
  ⟨⟨some "PHI", some 4⟩, ⟨some "NJD", some 7⟩,
    [⟨some "goal", some 10, DetailsField.owner (some 4)⟩,
     ⟨some "goal", some 11, DetailsField.malformed⟩]⟩

/-- The favorite-team goal play of `sampleAway`. -/
def sampleGoalPlay : Play := ⟨some "goal", some 10, DetailsField.owner (some 4)⟩

/-- A fresh trailing favorite-team goal play. -/
def sampleNewPlay : Play := ⟨some "goal", some 13, DetailsField.owner (some 4)⟩

/-- A delivery function whose every attempt fails. -/
def sendAlwaysFails : Play → Bool := fun _ => false

/-! The claims. -/

/-- Claim C1: at-most-once notification.  Across any sequence of calls to
`check_for_goals` with the same game id, starting from any notifier state,
each event id occurs in the concatenation of the returned lists at most
once: once an event id has been returned it is recorded in the notified
set and is never returned again, even when the same snapshot is re-scanned
by a later call. -/
theorem c1_at_most_once (gid : Option Int) (st : NotifiedMap)
    (fetches : List (Option Snapshot)) (e : Option Int) :
    (runCalls gid st fetches).1.countP (fun g => g.eventId == e) ≤ 1 :=
  runCalls_countP_le_one gid e fetches st

/-- Claim C2, counterexample to the claim as stated: on a snapshot whose
second goal play has a non-dictionary `details` value, a call for a game
that already has an entry in the notified map returns `[]` (fail-soft) but
does NOT leave the map in its prior state: event id 10, inserted into the
aliased set before the exception, stays recorded. -/
theorem c2_counterexample :
    raisesDuring [(some 1, [some 5])] (some 1) (some sampleRaise) = true
    ∧ (check_for_goals [(some 1, [some 5])] (some 1) (some sampleRaise)).1 = []
    ∧ (check_for_goals [(some 1, [some 5])] (some 1) (some sampleRaise)).2
        = [(some 1, [some 5, some 10])]
    ∧ (check_for_goals [(some 1, [some 5])] (some 1) (some sampleRaise)).2
        ≠ [(some 1, [some 5])] := by decide

/-- Claim C2 as amended: when `check_for_goals` hits its `except` branch it
returns the empty list; the notified map is left exactly unchanged when the
fetch/parse itself failed (nothing was scanned) or when the game had no
entry yet; entries of other games are never touched; and event ids already
recorded for this game are never lost.  (Per `c2_counterexample`, a game
that already has an entry can additionally keep event ids that were added
before a mid-scan failure, because the local set aliases the stored one.) -/
theorem c2_amended (st : NotifiedMap) (gid : Option Int) (fetch : Option Snapshot)
    (h : raisesDuring st gid fetch = true) :
    (check_for_goals st gid fetch).1 = []
    ∧ (fetch = none → (check_for_goals st gid fetch).2 = st)
    ∧ (mapGet st gid = none → (check_for_goals st gid fetch).2 = st)
    ∧ (∀ k, k ≠ gid → mapGet (check_for_goals st gid fetch).2 k = mapGet st k)
    ∧ (∀ e, e ∈ notifiedOf st gid → e ∈ notifiedOf (check_for_goals st gid fetch).2 gid) := by
  cases fetch with
  | none =>
    exact ⟨rfl, fun _ => rfl, fun _ => rfl, fun k _ => rfl, fun e he => he⟩
  | some data =>
    refine ⟨?_, fun hn => Option.noConfusion hn, ?_,
      fun k hk => check_other_keys st gid (some data) k hk,
      fun e he => check_mono st gid (some data) e he⟩
    · simp only [raisesDuring] at h
      simp only [check_for_goals]
      by_cases h1 : data.awayTeam.abbr = some "PHI"
      · rw [if_pos h1] at h ⊢
        exact (scanGoals_raised st gid data.awayTeam.id data.plays h).1
      · rw [if_neg h1] at h ⊢
        by_cases h2 : data.homeTeam.abbr = some "PHI"
        · rw [if_pos h2] at h ⊢
          exact (scanGoals_raised st gid data.homeTeam.id data.plays h).1
        · rw [if_neg h2] at h
          exact absurd h (by simp)
    · intro hnone
      simp only [raisesDuring] at h
      simp only [check_for_goals]
      by_cases h1 : data.awayTeam.abbr = some "PHI"
      · rw [if_pos h1] at h ⊢
        exact (scanGoals_raised st gid data.awayTeam.id data.plays h).2 hnone
      · rw [if_neg h1] at h ⊢
        by_cases h2 : data.homeTeam.abbr = some "PHI"
        · rw [if_pos h2] at h ⊢
          exact (scanGoals_raised st gid data.homeTeam.id data.plays h).2 hnone
        · rw [if_neg h2] at h
          exact absurd h (by simp)

/-- Witness for the amended C2: a mid-scan failure on a game with no prior
entry returns `[]` and leaves the map exactly unchanged. -/
theorem c2_amended_witness :
    raisesDuring [] (some 1) (some sampleRaise) = true
    ∧ (check_for_goals [] (some 1) (some sampleRaise)).1 = []
    ∧ (check_for_goals [] (some 1) (some sampleRaise)).2 = [] :=
  ⟨by decide, (c2_amended [] (some 1) (some sampleRaise) (by decide)).1,
    (c2_amended [] (some 1) (some sampleRaise) (by decide)).2.2.1 (by decide)⟩

/-- Claim C3: for every snapshot and every notified-map state, a goal
returned by `check_for_goals` always has its owning-team id
(`details.eventOwnerTeamId`) equal to the favorite team's numeric id as
resolved from that game's own payload. -/
theorem c3_owner_filter (st : NotifiedMap) (gid : Option Int) (data : Snapshot)
    (g : Play) (h : g ∈ (check_for_goals st gid (some data)).1) :
    ∃ fid, resolveFavoriteId data = some fid ∧ detailsOwner g.details = fid := by
  cases hres : resolveFavoriteId data with
  | none =>
    exfalso
    unfold resolveFavoriteId at hres
    by_cases h1 : data.awayTeam.abbr = some "PHI"
    · rw [if_pos h1] at hres
      exact Option.noConfusion hres
    · rw [if_neg h1] at hres
      by_cases h2 : data.homeTeam.abbr = some "PHI"
      · rw [if_pos h2] at hres
        exact Option.noConfusion hres
      · rw [check_not_participating st gid data h1 h2] at h
        simp at h
  | some fid =>
    refine ⟨fid, rfl, ?_⟩
    rw [check_eq_scanGoals st gid data fid hres] at h
    exact scanGoals_returned_owner st gid fid data.plays g h

/-- Witness for C3 at a concrete snapshot with a returned goal. -/
theorem c3_owner_filter_witness :
    sampleGoalPlay ∈ (check_for_goals [] (some 1) (some sampleAway)).1
    ∧ ∃ fid, resolveFavoriteId sampleAway = some fid
        ∧ detailsOwner sampleGoalPlay.details = fid :=
  ⟨by decide, c3_owner_filter [] (some 1) sampleAway sampleGoalPlay (by decide)⟩

/-- Claim C4: order preservation.  The list returned by `check_for_goals`
is a sublist of the snapshot's play list: new goals appear in the same
relative order as in the feed, with no reordering. -/
theorem c4_order_preserved (st : NotifiedMap) (gid : Option Int) (data : Snapshot) :
    ((check_for_goals st gid (some data)).1).Sublist data.plays := by
  simp only [check_for_goals]
  split_ifs
  · exact scanGoals_returned_sublist st gid data.awayTeam.id data.plays
  · exact scanGoals_returned_sublist st gid data.homeTeam.id data.plays
  · exact List.nil_sublist data.plays

/-- Claim C5: the games selected by `get_active_flyers_games` are exactly
the scoreboard games whose state is LIVE or CRIT and in which the away or
home abbreviation equals the configured favorite-team code (PHI).  This
holds for arbitrary game states, in particular for states drawn from
FUT, PRE, LIVE, CRIT, FINAL, OFF. -/
theorem c5_active_filter (gs : List ScoreGame) :
    get_active_flyers_games (some ⟨some gs⟩) = gs.filter specSelected := by
  simp only [get_active_flyers_games]
  apply List.filter_congr
  intro g _
  simp only [is_favorite_team_game, specSelected]
  rw [beq_getD_empty g.awayAbbrev "PHI" (by decide),
    beq_getD_empty g.homeAbbrev "PHI" (by decide),
    beq_getD_empty g.gameState "LIVE" (by decide),
    beq_getD_empty g.gameState "CRIT" (by decide)]

/-- Claim C6: a game in which neither participant is the favorite team
yields an empty result and a completely unchanged notified map: no entry
is created for that game id. -/
theorem c6_non_participating (st : NotifiedMap) (gid : Option Int) (data : Snapshot)
    (ha : data.awayTeam.abbr ≠ some "PHI") (hh : data.homeTeam.abbr ≠ some "PHI") :
    check_for_goals st gid (some data) = ([], st) :=
  check_not_participating st gid data ha hh

/-- Witness for C6 at a concrete non-participating game. -/
theorem c6_non_participating_witness :
    sampleOther.awayTeam.abbr ≠ some "PHI"
    ∧ sampleOther.homeTeam.abbr ≠ some "PHI"
    ∧ check_for_goals [(some 7, [some 1])] (some 9) (some sampleOther)
        = ([], [(some 7, [some 1])]) :=
  ⟨by decide, by decide,
    c6_non_participating [(some 7, [some 1])] (some 9) sampleOther (by decide) (by decide)⟩

/-- Claim C7: incremental extension.  If a second snapshot equals the
first plus one additional trailing goal event — a well-formed goal play of
the favorite team (which participates in the game) with an event id not
yet recorded after the first call, the first snapshot scanning cleanly —
then the second call returns exactly that one new event. -/
theorem c7_incremental (st : NotifiedMap) (gid : Option Int) (d1 : Snapshot)
    (g : Play) (fid : Option Int)
    (hres : resolveFavoriteId d1 = some fid)
    (hgoal : g.typeDescKey = some "goal")
    (hmal : g.details ≠ DetailsField.malformed)
    (hown : detailsOwner g.details = fid)
    (hclean : ∀ p ∈ d1.plays, p.typeDescKey = some "goal" → p.details ≠ DetailsField.malformed)
    (hfresh : g.eventId ∉ notifiedOf ((check_for_goals st gid (some d1)).2) gid) :
    (check_for_goals ((check_for_goals st gid (some d1)).2) gid
      (some (Snapshot.mk d1.awayTeam d1.homeTeam (d1.plays ++ [g])))).1 = [g] := by
  have hres2 : resolveFavoriteId (Snapshot.mk d1.awayTeam d1.homeTeam (d1.plays ++ [g]))
      = some fid := hres
  rw [check_eq_scanGoals st gid d1 fid hres] at hfresh
  rw [check_eq_scanGoals st gid d1 fid hres,
    check_eq_scanGoals ((scanGoals st gid fid d1.plays).2) gid
      (Snapshot.mk d1.awayTeam d1.homeTeam (d1.plays ++ [g])) fid hres2]
  exact scanGoals_incremental st gid fid d1.plays g hgoal hmal hown hclean hfresh

/-- Witness for C7: after a first call on `sampleAway`, a second call on
the same document extended with one fresh trailing favorite-team goal
returns exactly that goal. -/
theorem c7_incremental_witness :
    (check_for_goals ((check_for_goals [] (some 1) (some sampleAway)).2) (some 1)
      (some (Snapshot.mk sampleAway.awayTeam sampleAway.homeTeam
        (sampleAway.plays ++ [sampleNewPlay])))).1 = [sampleNewPlay] :=
  c7_incremental [] (some 1) sampleAway sampleNewPlay (some 4) (by decide) (by decide)
    (by decide) (by decide) (by decide) (by decide)

/-- Claim C8: when the scoreboard fetch fails (the client returns its empty
falsy document, modelled by `none`), the tick reports zero active games and
the notified map is left exactly as it was. -/
theorem c8_scoreboard_failure (st : NotifiedMap) (pbp : Option Int → Option Snapshot) :
    get_active_flyers_games none = [] ∧ tick st none pbp = ([], st) :=
  ⟨rfl, rfl⟩

/-- Claim C9: mark-before-delivery.  In the per-game body of
`monitor_games`, every new goal receives exactly one delivery attempt
whatever the delivery outcomes are; the resulting notifier state does not
depend on the delivery outcomes (no retry, no re-notification); and every
goal handed to delivery already has its event id recorded in the notifier
state that was computed before any delivery attempt. -/
theorem c9_mark_before_delivery (send1 send2 : Play → Bool) (st : NotifiedMap)
    (gid : Option Int) (fetch : Option Snapshot) :
    (monitorGameStep send1 st gid fetch).1.map Prod.fst = (check_for_goals st gid fetch).1
    ∧ (monitorGameStep send1 st gid fetch).2 = (monitorGameStep send2 st gid fetch).2
    ∧ ∀ p ∈ (monitorGameStep send1 st gid fetch).1,
        p.1.eventId ∈ notifiedOf (monitorGameStep send1 st gid fetch).2 gid := by
  refine ⟨map_pair_fst _ send1, rfl, ?_⟩
  intro p hp
  simp only [monitorGameStep] at hp ⊢
  obtain ⟨g, hg, hgp⟩ := List.mem_map.mp hp
  rw [← hgp]
  exact check_returned_marked st gid fetch g hg

/-- Witness for C9: a failed delivery attempt on a concrete goal still
leaves that goal marked in the notifier state. -/
theorem c9_mark_before_delivery_witness :
    (sampleGoalPlay, false) ∈ (monitorGameStep sendAlwaysFails [] (some 1) (some sampleAway)).1
    ∧ sampleGoalPlay.eventId ∈
        notifiedOf (monitorGameStep sendAlwaysFails [] (some 1) (some sampleAway)).2 (some 1) :=
  ⟨by decide,
    (c9_mark_before_delivery sendAlwaysFails sendAlwaysFails [] (some 1) (some sampleAway)).2.2
      (sampleGoalPlay, false) (by decide)⟩

/-- Claim C10: in-call deduplication.  Within a single call to
`check_for_goals`, each event id is returned at most once even when the
snapshot's play list contains the same favorite-team goal event id more
than once: the id is inserted into the notified set during the scan,
before later plays are examined. -/
theorem c10_in_call_dedup (st : NotifiedMap) (gid : Option Int)
    (fetch : Option Snapshot) (e : Option Int) :
    (check_for_goals st gid fetch).1.countP (fun g => g.eventId == e) ≤ 1 :=
  check_countP_le_one st gid fetch e
